import Mathlib

/-!
Verification of the `reth debug execution` command
(`src/bin/reth/src/commands/debug_cmd/execution.rs`).

The command's driver loop is embedded as a fuel-based executable function
over an effect environment `Env` that supplies the results of the external
calls the driver makes: header fetches from the network (`get_single_header`),
pipeline forward runs (`pipeline.run_loop`), and storage range unwinds
(`provider.take_block_and_execution_range`).  Every externally visible action
of the driver is recorded in an event trace, so properties about which
operations are invoked, with which arguments, and in which order can be
stated and proved.

Machine integers (`u64`) are modelled as `Nat`; the one place where the
source can overflow in a release build, `current_max_block + self.interval`
(line 292), is modelled with an explicit `% 2 ^ 64` wrap.
-/

namespace RethDebugExecution

/-- Errors returned by external calls (`eyre::Report` in the source). -/
abbrev Err := String

/-- A sealed header as returned by `get_single_header`; only its hash is
used by the driver (`tip_header.hash()`, line 219). -/
structure Header where
  hash : Nat
deriving DecidableEq, Repr

/-- Externally visible actions performed by the driver loop, in program
order.  `pipelineUnwind` records a call to the pipeline's stage-by-stage
unwind (`Pipeline::unwind`); the debug driver never performs it, which the
trace makes provable. -/
inductive Event where
  | fetchTip (block : Nat)
  | setTip (hash : Nat)
  | pipelineRun (target : Nat)
  | storageUnwind (first last : Nat)
  | pipelineUnwind (target : Nat)
deriving DecidableEq, Repr

/-- The effect environment: results of the driver's external calls.
`header block attempt` is the result of the `attempt`-th call to
`get_single_header` for `block`; `run_loop target` the result of
`pipeline.run_loop()` when the tip is the hash resolved for `target`;
`unwind first last` the result of
`take_block_and_execution_range(first..=last)`. -/
structure Env where
  header : Nat → Nat → Except Err Header
  run_loop : Nat → Except Err Unit
  unwind : Nat → Nat → Except Err Unit

/-- The retry loop of `Command::fetch_block_hash` (lines 209-226), with
explicit fuel: `none` means the loop is still retrying after `fuel`
attempts.  On a successful fetch it returns the fetched header's hash; on a
failed fetch it logs and moves to the next attempt. -/
def fetch_block_hash_aux (env : Env) (block : Nat) : Nat → Nat → Option (Except Err Nat)
  | _attempt, 0 => none
  | attempt, fuel + 1 =>
    match env.header block attempt with
    | Except.ok tip_header => some (Except.ok tip_header.hash)
    | Except.error _ => fetch_block_hash_aux env block (attempt + 1) fuel

/-- `Command::fetch_block_hash`, starting at the first attempt. -/
def fetch_block_hash (env : Env) (block fuel : Nat) : Option (Except Err Nat) :=
  fetch_block_hash_aux env block 0 fuel

/-- The target block of one driver iteration:
`self.to.min(current_max_block + self.interval)` (line 292), with the `u64`
addition wrapped as in a release build. -/
def next_target («to» interval current : Nat) : Nat :=
  min «to» ((current + interval) % 2 ^ 64)

/-- The driver's run/unwind loop (`Command::execute`, lines 289-311), with
explicit fuel bounding the number of iterations (`none` = fuel exhausted
while the loop was still running).  Returns the event trace, the final
value of `current_max_block`, and the result of the `execute` call.  Each
iteration: fetch the tip hash for the target block (retrying inside
`fetch_block_hash`), set the pipeline tip, run the pipeline, unwind the
range `next_block..=target_block` on the storage layer, and advance
`current_max_block` to the target block; any `Err` from run or unwind is
propagated immediately by the `?` operator. -/
def driver_loop (env : Env) («to» interval : Nat) :
    Nat → Nat → Option (List Event × Nat × Except Err Unit)
  | _current, 0 => none
  | current, fuel + 1 =>
    if current < «to» then
      let next_block := current + 1
      let target_block := next_target «to» interval current
      match fetch_block_hash env target_block (fuel + 1) with
      | none => none
      | some (Except.error e) =>
          some ([Event.fetchTip target_block], current, Except.error e)
      | some (Except.ok h) =>
          match env.run_loop target_block with
          | Except.error e =>
              some ([Event.fetchTip target_block, Event.setTip h,
                     Event.pipelineRun target_block], current, Except.error e)
          | Except.ok _ =>
              match env.unwind next_block target_block with
              | Except.error e =>
                  some ([Event.fetchTip target_block, Event.setTip h,
                         Event.pipelineRun target_block,
                         Event.storageUnwind next_block target_block],
                        current, Except.error e)
              | Except.ok _ =>
                  match driver_loop env «to» interval target_block fuel with
                  | none => none
                  | some (tr, fin, res) =>
                      some (Event.fetchTip target_block :: Event.setTip h ::
                            Event.pipelineRun target_block ::
                            Event.storageUnwind next_block target_block :: tr,
                            fin, res)
    else
      some ([], current, Except.ok ())

/-- The driver loop never exits, whatever fuel it is given. -/
def driver_diverges (env : Env) («to» interval current : Nat) : Prop :=
  ∀ fuel, driver_loop env «to» interval current fuel = none

/-- The two numeric CLI arguments of the `reth debug execution` `Command`
(lines 54-61); the flattened environment/network argument groups are not
modelled. -/
structure Command where
  «to» : Nat
  interval : Nat
deriving DecidableEq, Repr

/-- Modelled from the spec: clap's parsing of the `Command` argument
surface, which is produced by the derive macro and not present in the
source tree.  `--to` has no default value and a non-`Option` type, so
parsing fails when it is absent; `--interval` carries
`default_value = "1000"` (line 60), so it is `1000` when absent. -/
def parseCommand («to» : Option Nat) (interval : Option Nat) : Option Command :=
  match «to» with
  | none => none
  | some t => some ⟨t, interval.getD 1000⟩

/-- `Command::execute` from the checkpoint read onward (lines 265-313):
read the `Finish` stage checkpoint (`checkpoint`, `none` when unset),
return `Ok(())` at once when it already reaches `self.to` (lines 269-272),
otherwise enter the run/unwind loop from it. -/
def Command.execute (c : Command) (env : Env) (checkpoint : Option Nat)
    (fuel : Nat) : Option (List Event × Nat × Except Err Unit) :=
  let latest_block_number := checkpoint.getD 0
  if c.to ≤ latest_block_number then
    some ([], latest_block_number, Except.ok ())
  else
    driver_loop env c.to c.interval latest_block_number fuel

/-- The batch bounds of the execution stage (`ExecutionStageThresholds`,
lines 167-172 of the source construction). -/
structure ExecutionStageThresholds where
  max_blocks : Option Nat
  max_changes : Option Nat
  max_cumulative_gas : Option Nat
  max_duration : Option Nat
deriving DecidableEq, Repr

/-- The thresholds the debug command passes to its `ExecutionStage`
(lines 166-172): every bound is `None`. -/
def debug_execution_thresholds : ExecutionStageThresholds :=
  ⟨none, none, none, none⟩

/-- Modelled from the spec: the execution stage's end-of-batch check
(the `reth_stages` `ExecutionStage` body is not in the source tree).  A
batch stops early exactly when one of the four configured bounds is
exceeded by the accumulated block count, state-change count, cumulative
gas, or elapsed time; an unconfigured bound never stops a batch. -/
def ExecutionStageThresholds.is_end_of_batch (t : ExecutionStageThresholds)
    (blocks changes gas elapsed : Nat) : Bool :=
  (match t.max_blocks with
   | some m => m ≤ blocks
   | none => false) ||
  (match t.max_changes with
   | some m => m ≤ changes
   | none => false) ||
  (match t.max_cumulative_gas with
   | some m => m ≤ gas
   | none => false) ||
  (match t.max_duration with
   | some m => m ≤ elapsed
   | none => false)

/-- Modelled from the spec: `PruneModes` declares which historical segments
may be discarded; its fields live in `reth_prune_types`, outside the source
tree, so it is modelled as one optional per-segment retention bound. -/
structure PruneModes where
  segments : Option Nat
deriving DecidableEq, Repr

/-- `PruneModes::default()`: nothing is pruned. -/
def PruneModes.default : PruneModes := ⟨none⟩

/-- The prune section of the loaded `Config` (`config.prune`); its
`segments` field holds the configured `PruneModes`. -/
structure PruneConfig where
  segments : PruneModes
deriving DecidableEq, Repr

/-- The slice of the loaded configuration the claims need. -/
structure Config where
  prune : Option PruneConfig
deriving DecidableEq, Repr

/-- The prune modes handed to the pipeline's stage set and execution stage:
`config.prune.clone().map(|prune| prune.segments).unwrap_or_default()`
(line 142). -/
def pipeline_prune_modes (config : Config) : PruneModes :=
  (config.prune.map PruneConfig.segments).getD PruneModes.default

/-- The prune modes handed to the static file producer:
`StaticFileProducer::new(provider_factory.clone(), PruneModes::default())`
(lines 248-249). -/
def static_file_producer_prune_modes : PruneModes := PruneModes.default

/-- An environment in which every external call succeeds and the hash
resolved for a block is the block number itself. -/
def envOk : Env :=
  ⟨fun b _ => Except.ok ⟨b⟩, fun _ => Except.ok (), fun _ _ => Except.ok ()⟩

/-- The block number a `fetchTip` event resolved, if the event is one. -/
def Event.tipBlock : Event → Option Nat
  | Event.fetchTip b => some b
  | _ => none

/-- Whether an event is a pipeline forward run. -/
def Event.isRun : Event → Bool
  | Event.pipelineRun _ => true
  | _ => false

/-- Whether an event is a storage-layer range unwind. -/
def Event.isStorageUnwind : Event → Bool
  | Event.storageUnwind _ _ => true
  | _ => false

/-- An environment in which header fetches succeed but every pipeline
forward run fails. -/
def envRunErr : Env :=
  ⟨fun b _ => Except.ok ⟨b⟩, fun _ => Except.error "run", fun _ _ => Except.ok ()⟩

/-- An environment in which header fetches and pipeline runs succeed but
every storage range unwind fails. -/
def envUnwindErr : Env :=
  ⟨fun b _ => Except.ok ⟨b⟩, fun _ => Except.ok (), fun _ _ => Except.error "unwind"⟩

/-! ### Helper lemmas -/

/-- The fetch retry loop never produces an error result. -/
lemma fetch_aux_ne_error (env : Env) (block : Nat) :
    ∀ (fuel attempt : Nat) (e : Err),
      fetch_block_hash_aux env block attempt fuel ≠ some (Except.error e) := by
  intro fuel
  induction fuel with
  | zero =>
    intro attempt e h
    simp [fetch_block_hash_aux] at h
  | succ n ih =>
    intro attempt e h
    rw [fetch_block_hash_aux] at h
    cases hh : env.header block attempt with
    | ok hdr => rw [hh] at h; simp at h
    | error e0 => rw [hh] at h; exact ih (attempt + 1) e h

/-- A value produced by the fetch retry loop is the hash of a header a
fetch attempt returned, and every earlier attempt from the starting one on
failed. -/
lemma fetch_aux_some_shape (env : Env) (block : Nat) :
    ∀ (fuel attempt : Nat) (r : Except Err Nat),
      fetch_block_hash_aux env block attempt fuel = some r →
      ∃ i hdr, attempt ≤ i ∧ env.header block i = Except.ok hdr ∧
        r = Except.ok hdr.hash ∧
        ∀ j, attempt ≤ j → j < i → ∃ e, env.header block j = Except.error e := by
  intro fuel
  induction fuel with
  | zero =>
    intro attempt r h
    simp [fetch_block_hash_aux] at h
  | succ n ih =>
    intro attempt r h
    rw [fetch_block_hash_aux] at h
    cases hh : env.header block attempt with
    | ok hdr =>
      rw [hh] at h
      simp only [Option.some.injEq] at h
      exact ⟨attempt, hdr, le_refl _, hh, h.symm, fun j h1 h2 => absurd (lt_of_le_of_lt h1 h2) (lt_irrefl _)⟩
    | error e0 =>
      rw [hh] at h
      obtain ⟨i, hdr, hle, hok, hr, hprev⟩ := ih (attempt + 1) r h
      refine ⟨i, hdr, by omega, hok, hr, fun j h1 h2 => ?_⟩
      rcases Nat.eq_or_lt_of_le h1 with h1 | h1
      · exact ⟨e0, h1 ▸ hh⟩
      · exact hprev j h1 h2

/-- If every attempt fails, the fetch retry loop never returns. -/
lemma fetch_aux_all_fail (env : Env) (block : Nat)
    (hfail : ∀ i, ∃ e, env.header block i = Except.error e) :
    ∀ (fuel attempt : Nat), fetch_block_hash_aux env block attempt fuel = none := by
  intro fuel
  induction fuel with
  | zero => intro attempt; rfl
  | succ n ih =>
    intro attempt
    obtain ⟨e, he⟩ := hfail attempt
    rw [fetch_block_hash_aux, he]
    exact ih (attempt + 1)

/-- Unfolding the driver loop when the target height is reached: the loop
exits at once with `Ok(())`. -/
lemma driver_loop_exit (env : Env) («to» interval current fuel : Nat)
    (h : ¬ current < «to») :
    driver_loop env «to» interval current (fuel + 1) =
      some ([], current, Except.ok ()) := by
  rw [driver_loop]
  simp [h]

/-- Unfolding one fully successful driver iteration: the tip hash for
`next_target` is resolved on the first attempt, the pipeline run and the
storage unwind succeed, and the loop continues from `next_target`. -/
lemma driver_loop_step (env : Env) («to» interval current fuel : Nat)
    (hdr : Header) (tr : List Event) (fin : Nat) (res : Except Err Unit)
    (h : current < «to»)
    (hhdr : env.header (next_target «to» interval current) 0 = Except.ok hdr)
    (hrun : env.run_loop (next_target «to» interval current) = Except.ok ())
    (hunw : env.unwind (current + 1) (next_target «to» interval current) = Except.ok ())
    (hrec : driver_loop env «to» interval (next_target «to» interval current) fuel =
      some (tr, fin, res)) :
    driver_loop env «to» interval current (fuel + 1) =
      some (Event.fetchTip (next_target «to» interval current) ::
            Event.setTip hdr.hash ::
            Event.pipelineRun (next_target «to» interval current) ::
            Event.storageUnwind (current + 1) (next_target «to» interval current) :: tr,
            fin, res) := by
  have hf : fetch_block_hash env (next_target «to» interval current) (fuel + 1) =
      some (Except.ok hdr.hash) := by
    rw [fetch_block_hash, fetch_block_hash_aux, hhdr]
  rw [driver_loop]
  simp only [if_pos h, hf, hrun, hunw, hrec]

/-- Unfolding a driver iteration whose pipeline run fails: the error is
returned at once, with `current_max_block` unchanged and no storage
unwind. -/
lemma driver_loop_run_error (env : Env) («to» interval current fuel : Nat)
    (hdr : Header) (e : Err)
    (h : current < «to»)
    (hhdr : env.header (next_target «to» interval current) 0 = Except.ok hdr)
    (hrun : env.run_loop (next_target «to» interval current) = Except.error e) :
    driver_loop env «to» interval current (fuel + 1) =
      some ([Event.fetchTip (next_target «to» interval current),
             Event.setTip hdr.hash,
             Event.pipelineRun (next_target «to» interval current)],
            current, Except.error e) := by
  have hf : fetch_block_hash env (next_target «to» interval current) (fuel + 1) =
      some (Except.ok hdr.hash) := by
    rw [fetch_block_hash, fetch_block_hash_aux, hhdr]
  rw [driver_loop]
  simp only [if_pos h, hf, hrun]

/-- Unfolding a driver iteration whose storage unwind fails: the error is
returned at once, with `current_max_block` unchanged. -/
lemma driver_loop_unwind_error (env : Env) («to» interval current fuel : Nat)
    (hdr : Header) (e : Err)
    (h : current < «to»)
    (hhdr : env.header (next_target «to» interval current) 0 = Except.ok hdr)
    (hrun : env.run_loop (next_target «to» interval current) = Except.ok ())
    (hunw : env.unwind (current + 1) (next_target «to» interval current) = Except.error e) :
    driver_loop env «to» interval current (fuel + 1) =
      some ([Event.fetchTip (next_target «to» interval current),
             Event.setTip hdr.hash,
             Event.pipelineRun (next_target «to» interval current),
             Event.storageUnwind (current + 1) (next_target «to» interval current)],
            current, Except.error e) := by
  have hf : fetch_block_hash env (next_target «to» interval current) (fuel + 1) =
      some (Except.ok hdr.hash) := by
    rw [fetch_block_hash, fetch_block_hash_aux, hhdr]
  rw [driver_loop]
  simp only [if_pos h, hf, hrun, hunw]

/-- Whenever the driver loop returns, the final `current_max_block` never
exceeds the target height it started below or at. -/
lemma driver_loop_no_overshoot (env : Env) («to» interval : Nat) :
    ∀ (fuel current : Nat) (tr : List Event) (fin : Nat) (res : Except Err Unit),
      current ≤ «to» →
      driver_loop env «to» interval current fuel = some (tr, fin, res) →
      fin ≤ «to» := by
  intro fuel
  induction fuel with
  | zero =>
    intro current tr fin res hle hsome
    simp [driver_loop] at hsome
  | succ n ih =>
    intro current tr fin res hle hsome
    rw [driver_loop] at hsome
    by_cases h : current < «to»
    · simp only [if_pos h] at hsome
      have hT : next_target «to» interval current ≤ «to» := min_le_left _ _
      split at hsome
      · exact absurd hsome (by simp)
      · simp only [Option.some.injEq, Prod.mk.injEq] at hsome
        omega
      · split at hsome
        · simp only [Option.some.injEq, Prod.mk.injEq] at hsome
          omega
        · split at hsome
          · simp only [Option.some.injEq, Prod.mk.injEq] at hsome
            omega
          · split at hsome
            · exact absurd hsome (by simp)
            · next tr0 fin0 res0 hrec =>
                simp only [Option.some.injEq, Prod.mk.injEq] at hsome
                obtain ⟨h1, h2, h3⟩ := hsome
                subst h2
                exact ih _ tr0 fin0 res0 hT hrec
    · simp only [if_neg h] at hsome
      simp only [Option.some.injEq, Prod.mk.injEq] at hsome
      omega

/-- Every error the driver loop returns is an error of a pipeline forward
run or of a storage range unwind; tip-resolution fetch failures never
surface. -/
lemma driver_loop_error_src (env : Env) («to» interval : Nat) :
    ∀ (fuel current : Nat) (tr : List Event) (fin : Nat) (e : Err),
      driver_loop env «to» interval current fuel = some (tr, fin, Except.error e) →
      (∃ t, env.run_loop t = Except.error e) ∨
      (∃ a b, env.unwind a b = Except.error e) := by
  intro fuel
  induction fuel with
  | zero =>
    intro current tr fin e hsome
    simp [driver_loop] at hsome
  | succ n ih =>
    intro current tr fin e hsome
    rw [driver_loop] at hsome
    by_cases h : current < «to»
    · simp only [if_pos h] at hsome
      split at hsome
      · exact absurd hsome (by simp)
      · next e0 hfetch =>
          exact absurd hfetch (fetch_aux_ne_error env _ _ _ e0)
      · split at hsome
        · next e0 hrun =>
            simp only [Option.some.injEq, Prod.mk.injEq] at hsome
            obtain ⟨h1, h2, h3⟩ := hsome
            cases h3
            exact Or.inl ⟨next_target «to» interval current, hrun⟩
        · split at hsome
          · next e0 hunw =>
              simp only [Option.some.injEq, Prod.mk.injEq] at hsome
              obtain ⟨h1, h2, h3⟩ := hsome
              cases h3
              exact Or.inr ⟨current + 1, next_target «to» interval current, hunw⟩
          · split at hsome
            · exact absurd hsome (by simp)
            · next tr0 fin0 res0 hrec =>
                simp only [Option.some.injEq, Prod.mk.injEq] at hsome
                obtain ⟨h1, h2, h3⟩ := hsome
                subst h3
                exact ih _ tr0 fin0 e hrec
    · simp only [if_neg h] at hsome
      simp only [Option.some.injEq, Prod.mk.injEq] at hsome
      obtain ⟨h1, h2, h3⟩ := hsome
      cases h3

/-- The driver loop never emits a stage-by-stage pipeline unwind event:
its rollback always goes through the storage layer. -/
lemma driver_loop_no_pipeline_unwind (env : Env) («to» interval : Nat) :
    ∀ (fuel current : Nat) (tr : List Event) (fin : Nat) (res : Except Err Unit)
      (t : Nat),
      driver_loop env «to» interval current fuel = some (tr, fin, res) →
      Event.pipelineUnwind t ∉ tr := by
  intro fuel
  induction fuel with
  | zero =>
    intro current tr fin res t hsome
    simp [driver_loop] at hsome
  | succ n ih =>
    intro current tr fin res t hsome
    rw [driver_loop] at hsome
    by_cases h : current < «to»
    · simp only [if_pos h] at hsome
      split at hsome
      · exact absurd hsome (by simp)
      · simp only [Option.some.injEq, Prod.mk.injEq] at hsome
        obtain ⟨h1, h2, h3⟩ := hsome
        subst h1
        simp
      · split at hsome
        · simp only [Option.some.injEq, Prod.mk.injEq] at hsome
          obtain ⟨h1, h2, h3⟩ := hsome
          subst h1
          simp
        · split at hsome
          · simp only [Option.some.injEq, Prod.mk.injEq] at hsome
            obtain ⟨h1, h2, h3⟩ := hsome
            subst h1
            simp
          · split at hsome
            · exact absurd hsome (by simp)
            · next tr0 fin0 res0 hrec =>
                simp only [Option.some.injEq, Prod.mk.injEq] at hsome
                obtain ⟨h1, h2, h3⟩ := hsome
                subst h1
                have htail := ih _ tr0 fin0 res0 t hrec
                simp [htail]
    · simp only [if_neg h] at hsome
      simp only [Option.some.injEq, Prod.mk.injEq] at hsome
      obtain ⟨h1, h2, h3⟩ := hsome
      subst h1
      simp

/-- When every external call succeeds, each tip fetch on the first attempt,
the interval is positive, and `to + interval` does not overflow `u64`, the
driver loop reaches exactly the target height from any start below it. -/
lemma driver_loop_reaches_target (env : Env) («to» interval : Nat)
    (hhdr : ∀ b, ∃ hdr, env.header b 0 = Except.ok hdr)
    (hrun : ∀ t, env.run_loop t = Except.ok ())
    (hunw : ∀ a b, env.unwind a b = Except.ok ())
    (hint : 1 ≤ interval) (hov : «to» + interval ≤ 2 ^ 64) :
    ∀ (k current : Nat), «to» - current ≤ k → current < «to» →
      ∃ fuel tr,
        driver_loop env «to» interval current fuel =
          some (tr, «to», Except.ok ()) := by
  intro k
  induction k with
  | zero => intro current hk hlt; omega
  | succ n ih =>
    intro current hk hlt
    have hmod : (current + interval) % 2 ^ 64 = current + interval :=
      Nat.mod_eq_of_lt (by omega)
    have hT1 : current + 1 ≤ next_target «to» interval current := by
      rw [next_target, hmod]
      exact le_min hlt (by omega)
    have hT2 : next_target «to» interval current ≤ «to» := min_le_left _ _
    obtain ⟨hdr, hh⟩ := hhdr (next_target «to» interval current)
    by_cases hTlt : next_target «to» interval current < «to»
    · obtain ⟨fuel, tr, hrec⟩ := ih (next_target «to» interval current) (by omega) hTlt
      exact ⟨fuel + 1, _,
        driver_loop_step env «to» interval current fuel hdr tr «to» (Except.ok ())
          hlt hh (hrun _) (hunw _ _) hrec⟩
    · have hTeq : next_target «to» interval current = «to» :=
        le_antisymm hT2 (not_lt.mp hTlt)
      have htail : driver_loop env «to» interval (next_target «to» interval current) 1 =
          some ([], «to», Except.ok ()) := by
        rw [hTeq]
        exact driver_loop_exit env «to» interval «to» 0 (lt_irrefl «to»)
      exact ⟨2, _,
        driver_loop_step env «to» interval current 1 hdr [] «to» (Except.ok ())
          hlt hh (hrun _) (hunw _ _) htail⟩

/-- With a zero interval the target block of every iteration equals the
current block, so the loop never advances: it runs forever even though
every external call succeeds. -/
lemma driver_loop_zero_interval_diverges :
    ∀ fuel, driver_loop envOk 1 0 0 fuel = none := by
  intro fuel
  induction fuel with
  | zero => rfl
  | succ n ih =>
    rw [driver_loop]
    have hT : next_target 1 0 0 = 0 := rfl
    have hf : fetch_block_hash envOk 0 (n + 1) = some (Except.ok 0) := by
      rw [fetch_block_hash, fetch_block_hash_aux]
      rfl
    have hrun0 : envOk.run_loop 0 = Except.ok () := rfl
    have hunw0 : envOk.unwind (0 + 1) 0 = Except.ok () := rfl
    simp only [if_pos (by norm_num : (0:Nat) < 1), hT, hf, hrun0, hunw0, ih]

/-! ### Claim theorems -/

/-- C1: each iteration of the driver's run/unwind loop runs while
`current < to`, computes its target block as exactly
`min(to, current + interval)` (with the `u64` addition wrapped), and at the
end of the iteration advances `current` to exactly that target block: a
successful iteration's continuation is the loop restarted from
`next_target`, and once `current < to` fails the loop stops. -/
theorem c1_loop_target_and_advance :
    ∀ (env : Env) («to» interval current fuel : Nat) (hdr : Header)
      (tr : List Event) (fin : Nat) (res : Except Err Unit),
      next_target «to» interval current = min «to» ((current + interval) % 2 ^ 64) ∧
      (current < «to» →
        env.header (next_target «to» interval current) 0 = Except.ok hdr →
        env.run_loop (next_target «to» interval current) = Except.ok () →
        env.unwind (current + 1) (next_target «to» interval current) = Except.ok () →
        driver_loop env «to» interval (next_target «to» interval current) fuel =
          some (tr, fin, res) →
        driver_loop env «to» interval current (fuel + 1) =
          some (Event.fetchTip (next_target «to» interval current) ::
                Event.setTip hdr.hash ::
                Event.pipelineRun (next_target «to» interval current) ::
                Event.storageUnwind (current + 1) (next_target «to» interval current) :: tr,
                fin, res)) ∧
      (¬ current < «to» →
        driver_loop env «to» interval current (fuel + 1) =
          some ([], current, Except.ok ())) :=
  fun env «to» interval current fuel hdr tr fin res =>
    ⟨rfl,
     fun h hh hr hu hrec =>
       driver_loop_step env «to» interval current fuel hdr tr fin res h hh hr hu hrec,
     fun h => driver_loop_exit env «to» interval current fuel h⟩

/-- Witness for C1: one concrete iteration from `current = 0` with
`to = 2`, `interval = 5` targets block `min 2 (0 + 5) = 2` and advances to
it. -/
theorem c1_witness :
    driver_loop envOk 2 5 0 2 =
      some ([Event.fetchTip 2, Event.setTip 2, Event.pipelineRun 2,
             Event.storageUnwind 1 2], 2, Except.ok ()) :=
  (c1_loop_target_and_advance envOk 2 5 0 1 ⟨2⟩ [] 2 (Except.ok ())).2.1
    (by norm_num) rfl rfl rfl rfl

/-- C2 counterexample: with `interval = 0` (an interval value the claim
quantifies over), starting checkpoint `0` and final height `1`, the loop
never terminates even though every external call succeeds: the target of
every iteration is `min 1 (0 + 0) = 0`, so `current` never advances. -/
theorem c2_counterexample : driver_diverges envOk 1 0 0 :=
  driver_loop_zero_interval_diverges

/-- C2 (amended): for every starting checkpoint `current < to` and every
positive interval such that `to + interval` does not overflow `u64`, if
every tip fetch succeeds (on its first attempt) and every pipeline run and
storage unwind succeed, the driver's run/unwind loop terminates and on exit
`current` equals `to` exactly. -/
theorem c2_driver_terminates :
    ∀ (env : Env) («to» interval current : Nat),
      (∀ b, ∃ hdr, env.header b 0 = Except.ok hdr) →
      (∀ t, env.run_loop t = Except.ok ()) →
      (∀ a b, env.unwind a b = Except.ok ()) →
      1 ≤ interval → «to» + interval ≤ 2 ^ 64 → current < «to» →
      ∃ fuel tr,
        driver_loop env «to» interval current fuel =
          some (tr, «to», Except.ok ()) :=
  fun env «to» interval current hhdr hrun hunw hint hov hlt =>
    driver_loop_reaches_target env «to» interval hhdr hrun hunw hint hov
      («to» - current) current (le_refl _) hlt

/-- Witness for C2 (amended): from checkpoint `0` with `to = 2`,
`interval = 1`, the loop terminates at exactly `2`. -/
theorem c2_witness :
    ∃ fuel tr, driver_loop envOk 2 1 0 fuel = some (tr, 2, Except.ok ()) :=
  c2_driver_terminates envOk 2 1 0 (fun b => ⟨⟨b⟩, rfl⟩) (fun _ => rfl)
    (fun _ _ => rfl) (by norm_num) (by norm_num) (by norm_num)

/-- C3: in every successful iteration, after the pipeline forward run the
driver performs the storage layer's range removal over exactly the
inclusive range `[current + 1, next_target]` (the `storageUnwind` event
follows the `pipelineRun` event and precedes the continuation's events,
i.e. the advance of `current`), and no driver trace ever contains a
stage-by-stage pipeline unwind event. -/
theorem c3_storage_range_unwind :
    ∀ (env : Env) («to» interval current fuel : Nat) (hdr : Header)
      (tr : List Event) (fin : Nat) (res : Except Err Unit) (t : Nat),
      (current < «to» →
        env.header (next_target «to» interval current) 0 = Except.ok hdr →
        env.run_loop (next_target «to» interval current) = Except.ok () →
        env.unwind (current + 1) (next_target «to» interval current) = Except.ok () →
        driver_loop env «to» interval (next_target «to» interval current) fuel =
          some (tr, fin, res) →
        driver_loop env «to» interval current (fuel + 1) =
          some (Event.fetchTip (next_target «to» interval current) ::
                Event.setTip hdr.hash ::
                Event.pipelineRun (next_target «to» interval current) ::
                Event.storageUnwind (current + 1) (next_target «to» interval current) :: tr,
                fin, res)) ∧
      (driver_loop env «to» interval current fuel = some (tr, fin, res) →
        Event.pipelineUnwind t ∉ tr) :=
  fun env «to» interval current fuel hdr tr fin res t =>
    ⟨fun h hh hr hu hrec =>
       driver_loop_step env «to» interval current fuel hdr tr fin res h hh hr hu hrec,
     fun hsome => driver_loop_no_pipeline_unwind env «to» interval fuel current tr fin res t hsome⟩

/-- Witness for C3: a concrete iteration unwinds the range `[1, 1]` through
the storage layer right after the pipeline run, and the resulting trace
holds no stage-by-stage pipeline unwind. -/
theorem c3_witness :
    driver_loop envOk 1 1 0 2 =
      some ([Event.fetchTip 1, Event.setTip 1, Event.pipelineRun 1,
             Event.storageUnwind 1 1], 1, Except.ok ()) ∧
    Event.pipelineUnwind 1 ∉
      [Event.fetchTip 1, Event.setTip 1, Event.pipelineRun 1,
       Event.storageUnwind 1 1] :=
  ⟨(c3_storage_range_unwind envOk 1 1 0 1 ⟨1⟩ [] 1 (Except.ok ()) 1).1
     (by norm_num) rfl rfl rfl rfl,
   (c3_storage_range_unwind envOk 1 1 0 2 ⟨1⟩
      [Event.fetchTip 1, Event.setTip 1, Event.pipelineRun 1,
       Event.storageUnwind 1 1] 1 (Except.ok ()) 1).2 rfl⟩

/-- C4: `fetch_block_hash` never returns an error: no fuel makes the retry
loop produce an `Err`; any returned value is the hash of the header
fetched by the first successful attempt, every earlier attempt having
failed; a failed attempt is followed by a retry; and if every attempt
fails the loop never returns. -/
theorem c4_fetch_block_hash_total :
    (∀ (env : Env) (block attempt fuel : Nat) (e : Err),
       fetch_block_hash_aux env block attempt fuel ≠ some (Except.error e)) ∧
    (∀ (env : Env) (block fuel : Nat) (r : Except Err Nat),
       fetch_block_hash env block fuel = some r →
       ∃ i hdr, env.header block i = Except.ok hdr ∧ r = Except.ok hdr.hash ∧
         ∀ j, j < i → ∃ e, env.header block j = Except.error e) ∧
    (∀ (env : Env) (block attempt fuel : Nat) (e : Err),
       env.header block attempt = Except.error e →
       fetch_block_hash_aux env block attempt (fuel + 1) =
         fetch_block_hash_aux env block (attempt + 1) fuel) ∧
    (∀ (env : Env) (block : Nat),
       (∀ i, ∃ e, env.header block i = Except.error e) →
       ∀ fuel, fetch_block_hash env block fuel = none) := by
  refine ⟨fun env block attempt fuel e => fetch_aux_ne_error env block fuel attempt e,
          fun env block fuel r h => ?_,
          fun env block attempt fuel e he => ?_,
          fun env block hfail fuel => fetch_aux_all_fail env block hfail fuel 0⟩
  · obtain ⟨i, hdr, _hle, hok, hr, hprev⟩ := fetch_aux_some_shape env block fuel 0 r h
    exact ⟨i, hdr, hok, hr, fun j hj => hprev j (Nat.zero_le j) hj⟩
  · rw [fetch_block_hash_aux, he]

/-- Witness for C4: a concrete successful fetch yields the fetched header's
hash. -/
theorem c4_witness :
    ∃ i hdr, envOk.header 7 i = Except.ok hdr ∧
      (Except.ok 7 : Except Err Nat) = Except.ok hdr.hash ∧
      ∀ j, j < i → ∃ e, envOk.header 7 j = Except.error e :=
  c4_fetch_block_hash_total.2.1 envOk 7 1 (Except.ok 7) rfl

/-- C5: an error from the pipeline forward run aborts the loop at once
(trace stops at the run, `current` is unchanged, no storage unwind, no
further iteration); an error from the storage range unwind likewise aborts
at once; and every error the loop ever returns is a pipeline-run or
storage-unwind error — transient tip-resolution fetch errors are never
propagated. -/
theorem c5_first_error_propagates :
    ∀ (env : Env) («to» interval current fuel : Nat) (hdr : Header) (e : Err),
      (current < «to» →
        env.header (next_target «to» interval current) 0 = Except.ok hdr →
        env.run_loop (next_target «to» interval current) = Except.error e →
        driver_loop env «to» interval current (fuel + 1) =
          some ([Event.fetchTip (next_target «to» interval current),
                 Event.setTip hdr.hash,
                 Event.pipelineRun (next_target «to» interval current)],
                current, Except.error e)) ∧
      (current < «to» →
        env.header (next_target «to» interval current) 0 = Except.ok hdr →
        env.run_loop (next_target «to» interval current) = Except.ok () →
        env.unwind (current + 1) (next_target «to» interval current) = Except.error e →
        driver_loop env «to» interval current (fuel + 1) =
          some ([Event.fetchTip (next_target «to» interval current),
                 Event.setTip hdr.hash,
                 Event.pipelineRun (next_target «to» interval current),
                 Event.storageUnwind (current + 1) (next_target «to» interval current)],
                current, Except.error e)) ∧
      (∀ (tr : List Event) (fin : Nat) (e' : Err),
        driver_loop env «to» interval current fuel = some (tr, fin, Except.error e') →
        (∃ t, env.run_loop t = Except.error e') ∨
        (∃ a b, env.unwind a b = Except.error e')) :=
  fun env «to» interval current fuel hdr e =>
    ⟨fun h hh hr =>
       driver_loop_run_error env «to» interval current fuel hdr e h hh hr,
     fun h hh hr hu =>
       driver_loop_unwind_error env «to» interval current fuel hdr e h hh hr hu,
     fun tr fin e' hsome =>
       driver_loop_error_src env «to» interval fuel current tr fin e' hsome⟩

/-- Witness for C5: a failing pipeline run aborts the loop at once with its
error and no unwind; a failing storage unwind aborts it right after; and a
returned error is traced back to the pipeline run. -/
theorem c5_witness :
    driver_loop envRunErr 5 2 0 1 =
      some ([Event.fetchTip 2, Event.setTip 2, Event.pipelineRun 2], 0,
            Except.error "run") ∧
    driver_loop envUnwindErr 5 2 0 1 =
      some ([Event.fetchTip 2, Event.setTip 2, Event.pipelineRun 2,
             Event.storageUnwind 1 2], 0, Except.error "unwind") ∧
    ((∃ t, envRunErr.run_loop t = Except.error "run") ∨
     (∃ a b, envRunErr.unwind a b = Except.error "run")) :=
  ⟨(c5_first_error_propagates envRunErr 5 2 0 0 ⟨2⟩ "run").1
     (by norm_num) rfl rfl,
   (c5_first_error_propagates envUnwindErr 5 2 0 0 ⟨2⟩ "unwind").2.1
     (by norm_num) rfl rfl rfl,
   (c5_first_error_propagates envRunErr 5 2 0 1 ⟨2⟩ "run").2.2
     [Event.fetchTip 2, Event.setTip 2, Event.pipelineRun 2] 0 "run" rfl⟩

/-- C6: with starting `current = 0`, final height `to = 5000`, and
`interval = 1000`, the driver performs exactly 5 run/unwind cycles,
resolving tip hashes for blocks 1000, 2000, 3000, 4000, 5000 in that
ascending order, and finishes at exactly 5000. -/
theorem c6_concrete_scenario :
    driver_loop envOk 5000 1000 0 6 =
      some ([Event.fetchTip 1000, Event.setTip 1000, Event.pipelineRun 1000,
             Event.storageUnwind 1 1000,
             Event.fetchTip 2000, Event.setTip 2000, Event.pipelineRun 2000,
             Event.storageUnwind 1001 2000,
             Event.fetchTip 3000, Event.setTip 3000, Event.pipelineRun 3000,
             Event.storageUnwind 2001 3000,
             Event.fetchTip 4000, Event.setTip 4000, Event.pipelineRun 4000,
             Event.storageUnwind 3001 4000,
             Event.fetchTip 5000, Event.setTip 5000, Event.pipelineRun 5000,
             Event.storageUnwind 4001 5000],
            5000, Except.ok ()) ∧
    ((driver_loop envOk 5000 1000 0 6).map fun r => r.1.filterMap Event.tipBlock) =
      some [1000, 2000, 3000, 4000, 5000] ∧
    ((driver_loop envOk 5000 1000 0 6).map fun r => (r.1.filter Event.isRun).length) =
      some 5 ∧
    ((driver_loop envOk 5000 1000 0 6).map fun r => (r.1.filter Event.isStorageUnwind).length) =
      some 5 :=
  ⟨rfl, rfl, rfl, rfl⟩

/-- C7: on the subcommand's argument surface, the final block height `to`
is required — parsing fails whenever it is absent — and the execution
interval defaults to `1000` when not supplied, while a supplied value is
kept. -/
theorem c7_cli_arguments :
    parseCommand none none = none ∧
    (∀ i, parseCommand none (some i) = none) ∧
    (∀ t, parseCommand (some t) none = some ⟨t, 1000⟩) ∧
    (∀ t i, parseCommand (some t) (some i) = some ⟨t, i⟩) :=
  ⟨rfl, fun _ => rfl, fun _ => rfl, fun _ _ => rfl⟩

/-- C8: when the persisted `Finish`-stage checkpoint (a missing one counts
as `0`) already reaches `to`, `execute` returns success immediately with an
empty event trace — no tip is set, no pipeline run happens, no range is
unwound; in particular `to = 0` always qualifies. -/
theorem c8_checkpoint_early_return :
    (∀ (c : Command) (env : Env) (checkpoint : Option Nat) (fuel : Nat),
       c.to ≤ checkpoint.getD 0 →
       c.execute env checkpoint fuel =
         some ([], checkpoint.getD 0, Except.ok ())) ∧
    (∀ (interval : Nat) (env : Env) (checkpoint : Option Nat) (fuel : Nat),
       Command.execute ⟨0, interval⟩ env checkpoint fuel =
         some ([], checkpoint.getD 0, Except.ok ())) := by
  constructor
  · intro c env checkpoint fuel h
    simp only [Command.execute, if_pos h]
  · intro interval env checkpoint fuel
    have h : (Command.mk 0 interval).to ≤ checkpoint.getD 0 := Nat.zero_le _
    simp only [Command.execute, if_pos h]

/-- Witness for C8: with `to = 3` and a persisted checkpoint at `5`,
`execute` returns success at once with an empty trace. -/
theorem c8_witness :
    Command.execute ⟨3, 1000⟩ envOk (some 5) 0 =
      some ([], 5, Except.ok ()) :=
  c8_checkpoint_early_return.1 ⟨3, 1000⟩ envOk (some 5) 0 (by decide)

/-- C9: the debug command builds its execution stage with all four batch
thresholds set to `None`, so the end-of-batch check never fires: no debug
execution batch is cut short by a threshold, whatever is accumulated. -/
theorem c9_no_thresholds :
    debug_execution_thresholds.max_blocks = none ∧
    debug_execution_thresholds.max_changes = none ∧
    debug_execution_thresholds.max_cumulative_gas = none ∧
    debug_execution_thresholds.max_duration = none ∧
    ∀ blocks changes gas elapsed,
      debug_execution_thresholds.is_end_of_batch blocks changes gas elapsed = false :=
  ⟨rfl, rfl, rfl, rfl, fun _ _ _ _ => rfl⟩

/-- C10: the static file producer is constructed with default prune modes,
while the pipeline's stage set and execution stage receive the prune modes
derived from the loaded configuration (the configured segments when a prune
section is present, the default otherwise), so for one run the two can
differ. -/
theorem c10_prune_modes_differ :
    static_file_producer_prune_modes = PruneModes.default ∧
    (∀ pc : PruneConfig, pipeline_prune_modes ⟨some pc⟩ = pc.segments) ∧
    pipeline_prune_modes ⟨none⟩ = static_file_producer_prune_modes ∧
    (∃ cfg : Config, pipeline_prune_modes cfg ≠ static_file_producer_prune_modes) :=
  ⟨rfl, fun _ => rfl, rfl, ⟨⟨some ⟨⟨some 0⟩⟩⟩, by simp [pipeline_prune_modes,
    static_file_producer_prune_modes, PruneModes.default]⟩⟩

/-- Witness for C10: the prune modes derived from a configuration whose
prune section retains segments up to distance `0` differ from the
producer's default. -/
theorem c10_witness :
    pipeline_prune_modes ⟨some ⟨⟨some 0⟩⟩⟩ = (⟨some 0⟩ : PruneModes) :=
  c10_prune_modes_differ.2.1 ⟨⟨some 0⟩⟩

end RethDebugExecution
